import Mathlib

/-!
# Verification of the video post-processing pipeline

Shallow embedding of the pure decision logic of the video-processing router
(`backend/app/routers/video_processing.py`): base64 cleaning, media probing,
trailing-silence detection, the silence-trim pre-pass, filter parameter
mapping, the concat filter-graph builder, input-count validation, audio
magic-byte sniffing, the apply-filters endpoint flow, and the segment-replace
fit computation.  Subprocess executions are abstracted by their observable
results (exit code, parsed output, detector outcome); byte strings are
`List Nat` of byte values, text is `List Nat` of code points or `String`
where convenient, and Python floats are modelled as `ℚ`.
-/

namespace GenMedia

/-! ## Media prober (`probe_video`, lines 29-40)

The engine invocation is abstracted by the completed process's return code
and by the outcome of JSON-parsing its stdout (`parsed = none` exactly when
`json.loads` would raise).  The Python body is
`if result.returncode == 0: return json.loads(result.stdout)` followed by
`return {}` — the parse is *not* guarded, so its failure propagates. -/

/-- A stream record as far as the pipeline reads it: its `codec_type`. -/
inductive StreamKind
  | audio
  | video
  | other
deriving DecidableEq, Repr

/-- The probe data the pipeline consumes: stream kinds and the container
`format.duration` (absent keys read back as their defaults). -/
structure ProbeInfo where
  streams : List StreamKind
  duration : Option ℚ
deriving DecidableEq, Repr

/-- The empty dict `{}` returned by `probe_video` on non-zero engine exit:
`.get("streams", [])` is empty and `.get("format", {}).get("duration", 0)`
is absent. -/
def ProbeInfo.empty : ProbeInfo := ⟨[], none⟩

/-- Embedding of `probe_video` (lines 29-40).  `returncode` is the engine's
exit status; `parsed` is `some j` when `json.loads(result.stdout)` yields `j`
and `none` when it would raise `JSONDecodeError`. -/
def probe_video (returncode : Int) (parsed : Option ProbeInfo) : Except String ProbeInfo :=
  if returncode = 0 then
    match parsed with
    | some j => .ok j
    | none => .error "JSONDecodeError"
  else .ok ProbeInfo.empty

/-- `float(info.get("format", {}).get("duration", 0))` as used at lines 176,
1177-1178. -/
def probeDuration (p : ProbeInfo) : ℚ := p.duration.getD 0

/-- Whether any probed stream has `codec_type == "audio"` (lines 165-169,
443-449, 766-770). -/
def hasAudioStream (p : ProbeInfo) : Bool := p.streams.contains StreamKind.audio

/-! ## Merge input-count validation (`merge_videos`, lines 355-370)

An empty (or missing) list falls into the "Either videos_base64 or
video_urls must be provided" branch; otherwise the count bounds are
enforced before any download, decode or probe. -/

/-- The status code of the immediate rejection raised by the input checks of
`merge_videos` for a list of `n` input videos, or `none` when the count
checks pass. -/
def merge_count_check (n : Nat) : Option Nat :=
  if n = 0 then some 400
  else if n < 2 then some 400
  else if n > 25 then some 400
  else none

/-! ## Audio magic-byte sniffing (`add_music_to_video`, lines 740-751) -/

/-- Embedding of the magic-byte format detection: `audio_ext` starts as
`"mp3"` and is reassigned by the first matching clause of the `if` chain
when the buffer has at least 4 bytes. -/
def detect_audio_format (audio_bytes : List Nat) : String :=
  if 4 ≤ audio_bytes.length then
    if audio_bytes.take 4 = [82, 73, 70, 70] then "wav"
    else if audio_bytes.take 3 = [73, 68, 51] ∨ audio_bytes.take 2 = [255, 251]
        ∨ audio_bytes.take 2 = [255, 250] then "mp3"
    else if audio_bytes.take 4 = [102, 76, 97, 67] then "flac"
    else if audio_bytes.take 4 = [79, 103, 103, 83] then "ogg"
    else if (audio_bytes.drop 4).take 4 = [102, 116, 121, 112] then "m4a"
    else "mp3"
  else "mp3"

/-! ## Trailing-silence detection (`detect_trailing_silence`, lines 195-226)

The subprocess and regex-parsing half of the function is abstracted: the
embedding takes the already-parsed `silence_start` / `silence_end` marker
values and the probed total duration, and reproduces the decision logic of
lines 203-226 verbatim (`silence_starts[-1]`, the end-marker count
comparison, and the `abs(last_silence_end - duration) < 0.5` tolerance). -/

/-- Decision core of `detect_trailing_silence` on the parsed marker lists. -/
def detect_trailing_silence (silence_starts silence_ends : List ℚ)
    (duration : ℚ) : Option ℚ :=
  if silence_starts = [] then none
  else
    let last_silence_start := silence_starts.getLastD 0
    if silence_ends.length < silence_starts.length then some last_silence_start
    else
      let last_silence_end := silence_ends.getLastD 0
      if |last_silence_end - duration| < 1/2 then some last_silence_start
      else none

/-! ## Silence-trim pre-pass (`merge_videos`, lines 400-430, and
`trim_video_to_point`, lines 229-259)

The detector runs (subprocesses) are abstracted by an oracle
`detect : ℚ → ℚ → Option ℚ` giving the result of
`detect_trailing_silence(video_path, noise_db, min_duration)` for the fixed
input video, and the trim subprocess by `trim_ok : ℚ → Bool` giving whether
`trim_video_to_point` at that trim point returns `True`. -/

/-- The threshold ladder of lines 408-414: try `-30dB`, then `-40dB`, then
`-50dB`, each with `min_duration=0.1`, keeping the first non-`None` result. -/
def select_trim_point (detect : ℚ → ℚ → Option ℚ) : Option ℚ :=
  match detect (-30) (1/10) with
  | some t => some t
  | none =>
    match detect (-40) (1/10) with
    | some t => some t
    | none => detect (-50) (1/10)

/-- Which file the merge proceeds with for one input video. -/
inductive TrimOutcome
  | trimmedAt (t : ℚ)
  | original
deriving DecidableEq, Repr

/-- Lines 416-429: trim only when the selected trim point exceeds `0.5`;
when `trim_video_to_point` fails, keep the original file. -/
def process_video_for_trim (detect : ℚ → ℚ → Option ℚ) (trim_ok : ℚ → Bool) :
    TrimOutcome :=
  match select_trim_point detect with
  | some t =>
    if t > 1/2 then
      if trim_ok t then .trimmedAt t else .original
    else .original
  | none => .original

/-! ## Parameter mapper (`filter_config_to_ffmpeg`, lines 262-334)

One `FilterConfig` maps to at most one filter fragment.  The fragment's
numeric content is kept symbolically (one constructor per emitted filter
expression); `params.get(key, default)` is modelled over an association
list of numeric parameters. -/

/-- `params.get(key, default)` over the numeric parameter mapping. -/
def getParam (params : List (String × ℚ)) (key : String) (default : ℚ) : ℚ :=
  ((params.find? (fun p => p.1 = key)).map Prod.snd).getD default

/-- A `FilterConfig`: a type tag and a parameter mapping. -/
structure FilterConfig where
  type : String
  params : List (String × ℚ)

/-- The filter expressions `filter_config_to_ffmpeg` can emit, abstracting
the f-string by its numeric payload. -/
inductive FilterFragment
  | eqBrightness (brightness contrast_ffmpeg : ℚ)
  | gblur (sigma : ℚ)
  | hue (h s : ℚ)
  | noiseGrain (strength : ℚ)
  | unsharp (amount : ℚ)
  | vignette (intensity : ℚ)
deriving DecidableEq, Repr

/-- Embedding of `filter_config_to_ffmpeg` (lines 262-334); `none` is the
Python `return None` (filter omitted from the chain). -/
def filter_config_to_ffmpeg (filter_config : FilterConfig) : Option FilterFragment :=
  let params := filter_config.params
  if filter_config.type = "brightness" then
    let brightness := getParam params "brightness" 0
    let contrast := getParam params "contrast" 0
    some (.eqBrightness brightness (1 + contrast))
  else if filter_config.type = "blur" then
    let strength := getParam params "strength" 0
    if strength ≤ 0 then none
    else some (.gblur (min (max (strength / 2) (1/100)) 1024))
  else if filter_config.type = "hueSaturation" then
    let hue := getParam params "hue" 0
    let saturation := getParam params "saturation" 0
    some (.hue hue (1 + saturation))
  else if filter_config.type = "filmGrain" then
    let intensity := getParam params "intensity" 0
    if intensity ≤ 0 then none
    else some (.noiseGrain (min (max intensity 0) 100))
  else if filter_config.type = "sharpen" then
    let gamma := getParam params "gamma" 1
    let amount := min (max gamma 0) 5
    if amount = 1 then none
    else some (.unsharp amount)
  else if filter_config.type = "vignette" then
    let intensity := getParam params "intensity" (1/2)
    some (.vignette intensity)
  else if filter_config.type = "crop" then none
  else none

/-! ## Concat filter-graph builder (`merge_videos`, lines 436-516)

The loop of lines 472-491 builds `filter_parts` (one scale/pad/fps video
segment per input, plus per-input audio segments chosen by the three-way
branch) and `concat_inputs` (the labels fed to the final concat node);
lines 494-499 append the concat node and fix the output map.  Segments and
labels are abstracted by kind and input index. -/

/-- Filter-graph segments emitted by the concat builder. -/
inductive FPart
  | scalepad (i : Nat)
  | aformat (i : Nat)
  | anullsrc (i : Nat)
  | concatNode (n v a : Nat)
deriving DecidableEq, Repr

/-- Stream labels accumulated into `concat_inputs`. -/
inductive StreamLabel
  | v (i : Nat)
  | a (i : Nat)
deriving DecidableEq, Repr

/-- Output map arguments: `-map "[outv]"` and `-map "[outa]"`. -/
inductive MapArg
  | outv
  | outa
deriving DecidableEq, Repr

/-- The per-input loop of lines 472-491, starting at input index `i`. -/
def concat_loop (all_have_audio any_has_audio : Bool) :
    Nat → List Bool → List FPart × List StreamLabel
  | _, [] => ([], [])
  | i, h :: rest =>
    let done := concat_loop all_have_audio any_has_audio (i + 1) rest
    if all_have_audio then
      (.scalepad i :: .aformat i :: done.1, .v i :: .a i :: done.2)
    else if any_has_audio then
      if h then (.scalepad i :: .aformat i :: done.1, .v i :: .a i :: done.2)
      else (.scalepad i :: .anullsrc i :: done.1, .v i :: .a i :: done.2)
    else (.scalepad i :: done.1, .v i :: done.2)

/-- Lines 441-499: the complete filter-graph plan of the merge — the graph
segments, the concat-node input labels, and the output map. -/
def build_concat_graph (has_audio_list : List Bool) :
    List FPart × List StreamLabel × List MapArg :=
  let n := has_audio_list.length
  let all_have_audio := has_audio_list.all id
  let any_has_audio := has_audio_list.any id
  let looped := concat_loop all_have_audio any_has_audio 0 has_audio_list
  if any_has_audio then
    (looped.1 ++ [.concatNode n 1 1], looped.2, [.outv, .outa])
  else
    (looped.1 ++ [.concatNode n 1 0], looped.2, [.outv])

/-- The number of audio labels among the concat-node inputs. -/
def audioLabelCount (ls : List StreamLabel) : Nat :=
  ls.countP fun l => match l with | .a _ => true | _ => false

/-- Whether a graph segment is an audio segment (`aformat` or `anullsrc`). -/
def FPart.isAudioSeg : FPart → Bool
  | .aformat _ => true
  | .anullsrc _ => true
  | _ => false

/-! ## Base64 resolver (`clean_base64`, lines 112-138)

Bytes and text are `List Nat` (byte values / code points).  The stdlib
`base64.b64encode` / `base64.b64decode` (the latter in its default
non-validating mode: non-alphabet characters are discarded, the retained
character count must be a multiple of four, and `=` only terminates the
data) are embedded over code-point lists. -/

/-- The standard base64 alphabet: sextet `n` (`n < 64`) to code point. -/
def b64charOfSextet (n : Nat) : Nat :=
  if n < 26 then n + 65
  else if n < 52 then n + 71
  else if n < 62 then n - 4
  else if n = 62 then 43
  else 47

/-- Code point back to sextet; `none` off the standard alphabet. -/
def sextetOfB64char (c : Nat) : Option Nat :=
  if 65 ≤ c ∧ c ≤ 90 then some (c - 65)
  else if 97 ≤ c ∧ c ≤ 122 then some (c - 97 + 26)
  else if 48 ≤ c ∧ c ≤ 57 then some (c - 48 + 52)
  else if c = 43 then some 62
  else if c = 47 then some 63
  else none

/-- `base64.b64encode` over byte values: three bytes become four alphabet
characters, a one- or two-byte tail is completed with `=` (61). -/
def b64encode : List Nat → List Nat
  | [] => []
  | [b1] => [b64charOfSextet (b1 / 4), b64charOfSextet (b1 % 4 * 16), 61, 61]
  | [b1, b2] =>
    [b64charOfSextet (b1 / 4), b64charOfSextet (b1 % 4 * 16 + b2 / 16),
      b64charOfSextet (b2 % 16 * 4), 61]
  | b1 :: b2 :: b3 :: rest =>
    b64charOfSextet (b1 / 4) :: b64charOfSextet (b1 % 4 * 16 + b2 / 16) ::
      b64charOfSextet (b2 % 16 * 4 + b3 / 64) :: b64charOfSextet (b3 % 64) ::
      b64encode rest

/-- Whether the non-validating decoder retains a character (alphabet or
padding); every other character is discarded. -/
def isB64orPad (c : Nat) : Bool := (sextetOfB64char c).isSome || c = 61

/-- Decode retained characters in groups of four; `=` is accepted only as
the final one or two characters of the data. -/
def decodeB64Groups : List Nat → Option (List Nat)
  | [] => some []
  | c1 :: c2 :: c3 :: c4 :: rest =>
    match sextetOfB64char c1, sextetOfB64char c2 with
    | some s1, some s2 =>
      if c3 = 61 then
        if c4 = 61 ∧ rest = [] then some [s1 * 4 + s2 / 16] else none
      else
        match sextetOfB64char c3 with
        | some s3 =>
          if c4 = 61 then
            if rest = [] then some [s1 * 4 + s2 / 16, s2 % 16 * 16 + s3 / 4]
            else none
          else
            match sextetOfB64char c4 with
            | some s4 =>
              (decodeB64Groups rest).map
                (fun bs => (s1 * 4 + s2 / 16) :: (s2 % 16 * 16 + s3 / 4) ::
                  (s3 % 4 * 64 + s4) :: bs)
            | none => none
        | none => none
    | _, _ => none
  | _ => none

/-- `base64.b64decode` in its default non-validating mode, on the inputs
the resolver can hand it; `none` is a raised `binascii.Error`. -/
def b64decode (s : List Nat) : Option (List Nat) :=
  let t := s.filter isB64orPad
  if t.length % 4 = 0 then decodeB64Groups t else none

/-- Code points `str.strip()` removes (Python `str.isspace`). -/
def isPySpace (c : Nat) : Bool :=
  (9 ≤ c && c ≤ 13) || (28 ≤ c && c ≤ 32) || c = 133 || c = 160 || c = 5760 ||
    (8192 ≤ c && c ≤ 8202) || c = 8232 || c = 8233 || c = 8239 || c = 8287 ||
    c = 12288

/-- `str.strip()`: drop whitespace from both ends. -/
def pyStrip (s : List Nat) : List Nat :=
  ((s.dropWhile isPySpace).reverse.dropWhile isPySpace).reverse

/-- `str.replace(old, "")` for one character: remove every occurrence. -/
def removeChar (c : Nat) (s : List Nat) : List Nat := s.filter (fun x => x ≠ c)

/-- `str.replace(old, new)` for single characters. -/
def replaceChar (a b : Nat) (s : List Nat) : List Nat :=
  s.map (fun x => if x = a then b else x)

/-- Line 124: remove every `\n`, `\r` and space
(`.replace("\n", "").replace("\r", "").replace(" ", "")`). -/
def removeWs (s : List Nat) : List Nat :=
  removeChar 32 (removeChar 13 (removeChar 10 s))

/-- Line 127: translate the URL-safe alphabet to the standard one
(`.replace("-", "+").replace("_", "/")`). -/
def toStdAlphabet (s : List Nat) : List Nat :=
  replaceChar 95 47 (replaceChar 45 43 s)

/-- Lines 117-121: when the input starts with `data:`, drop everything up
to and including the first comma (if any). -/
def stripDataHead (s : List Nat) : List Nat :=
  if s.take 5 = [100, 97, 116, 97, 58] then
    match s.findIdx? (fun c => c = 44) with
    | some i => s.drop (i + 1)
    | none => s
  else s

/-- Lines 129-132: pad with `=` to a multiple of four characters. -/
def padB64 (s : List Nat) : List Nat :=
  if s.length % 4 = 0 then s else s ++ List.replicate (4 - s.length % 4) 61

/-- Embedding of `clean_base64` (lines 112-138): `none` is a raised
`ValueError` (empty input, or `b64decode` failure re-raised at line 138). -/
def clean_base64 (b64_string : List Nat) : Option (List Nat) :=
  if b64_string = [] then none
  else
    b64decode (padB64 (toStdAlphabet (removeWs (pyStrip
      (stripDataHead b64_string)))))

/-- A character the canonical encoder can emit: a standard-alphabet
character or the fill character `=`. -/
def GoodB64Char (c : Nat) : Prop := (∃ n, n < 64 ∧ c = b64charOfSextet n) ∨ c = 61

/-- The relation between a cleaned encoding and a noisy body: characters
kept as-is, `+` / `/` optionally written as their URL-safe variants `-` /
`_`, and whitespace (`\n`, `\r`, space) inserted anywhere. -/
inductive UrlSafeNoisy : List Nat → List Nat → Prop
  | nil : UrlSafeNoisy [] []
  | keep {c : Nat} {t u : List Nat} :
      UrlSafeNoisy t u → UrlSafeNoisy (c :: t) (c :: u)
  | plus {t u : List Nat} : UrlSafeNoisy t u → UrlSafeNoisy (43 :: t) (45 :: u)
  | slash {t u : List Nat} : UrlSafeNoisy t u → UrlSafeNoisy (47 :: t) (95 :: u)
  | ws {w : Nat} {t u : List Nat} : w = 10 ∨ w = 13 ∨ w = 32 →
      UrlSafeNoisy t u → UrlSafeNoisy t (w :: u)

/-- `s` is a valid encoded media input for the raw bytes `B`: the canonical
encoding of `B` with up to its whole `=` padding missing, written partly in
the URL-safe alphabet, interspersed with whitespace, and optionally behind
a `data:<meta>,` head whose metadata contains no comma. -/
def NoisyEncodingOf (B s : List Nat) : Prop :=
  ∃ (meta : List Nat) (k : Nat) (body : List Nat),
    44 ∉ meta ∧ k ≤ 2 ∧
    (∃ e0, e0 ++ List.replicate k 61 = b64encode B ∧ UrlSafeNoisy e0 body) ∧
    (s = body ∨ s = [100, 97, 116, 97, 58] ++ meta ++ 44 :: body)

/-! ## Segment replace (`replace_video_segment`, lines 1123-1295)

The fit computation of lines 1187-1206 over the probed durations.  Python
float division raising `ZeroDivisionError` on a zero divisor is `pydiv`;
`int()` truncation toward zero is `pyint`. -/

/-- Python `int()` truncation toward zero on a rational. -/
def pyint (q : ℚ) : Int := if 0 ≤ q then ⌊q⌋ else ⌈q⌉

/-- Python float division: raises `ZeroDivisionError` on a zero divisor. -/
def pydiv (a b : ℚ) : Except String ℚ :=
  if b = 0 then .error "float division by zero" else .ok (a / b)

/-- The replacement-clip filter chosen by the fit mode, abstracted by its
numeric payload. -/
inductive ReplFilter
  | setptsFactor (f : ℚ)
  | loopTrim (loop_count : Int) (d : ℚ)
  | trimOnly (d : ℚ)
  | asIs
deriving DecidableEq, Repr

/-- Lines 1190-1206: how the replacement clip is fitted to the segment
duration under the three fit modes. -/
def compute_replacement_filter (fit_mode : String)
    (replacement_duration segment_duration : ℚ) : Except String ReplFilter :=
  if fit_mode = "stretch" then
    let speed_factor :=
      if segment_duration > 0 then replacement_duration / segment_duration else 1
    (pydiv 1 speed_factor).map ReplFilter.setptsFactor
  else if fit_mode = "loop" then
    if replacement_duration < segment_duration then
      (pydiv segment_duration replacement_duration).map
        (fun q => ReplFilter.loopTrim (pyint q + 1) segment_duration)
    else .ok (.trimOnly segment_duration)
  else
    if replacement_duration > segment_duration then
      .ok (.trimOnly segment_duration)
    else .ok .asIs

/-- The start/end validation of lines 1142-1145, the end-time clamp of
lines 1183-1185, and the fit computation; an exception escaping the body is
turned into a generic 500 error by the handler at lines 1293-1295. -/
def replace_segment_plan
    (start_time end_time base_duration replacement_duration : ℚ)
    (fit_mode : String) : Except (Nat × String) ReplFilter :=
  if start_time < 0 then .error (400, "start_time must be >= 0")
  else if end_time ≤ start_time then
    .error (400, "end_time must be greater than start_time")
  else
    let end_clamped := if end_time > base_duration then base_duration else end_time
    let segment_duration := end_clamped - start_time
    match compute_replacement_filter fit_mode replacement_duration
        segment_duration with
    | .ok f => .ok f
    | .error e => .error (500, e)

/-! ## Apply-filters endpoint (`build_ffmpeg_filter_string`, lines 546-606,
and `apply_filters_to_video`, lines 609-696) -/

/-- One raw filter dict of the request: `f.get("type", "")` and its numeric
params. -/
structure FilterDictEntry where
  type : String
  params : List (String × ℚ)
deriving DecidableEq

/-- The chain fragments `build_ffmpeg_filter_string` can append, each
abstracting one appended f-string by its numeric payload. -/
inductive ChainPart
  | hueRot (h : ℚ)
  | eqSaturation (s : ℚ)
  | eqBC (brightness contrast : ℚ)
  | boxblur (radius : Int)
  | unsharpAmount (amount : ℚ)
  | vignetteAngle (intensity : ℚ)
  | noiseGrain (alls : Int)
  | noiseUniform (alls : Int)
deriving DecidableEq, Repr

/-- The fragments one entry contributes (lines 553-604). -/
def entry_parts (f : FilterDictEntry) : List ChainPart :=
  if f.type = "hueSaturation" then
    let hue := getParam f.params "hue" 0
    let saturation := getParam f.params "saturation" 1
    (if hue ≠ 0 then [ChainPart.hueRot hue] else []) ++
      (if saturation ≠ 1 then [ChainPart.eqSaturation saturation] else [])
  else if f.type = "brightnessContrast" then
    let brightness := getParam f.params "brightness" 0
    let contrast := getParam f.params "contrast" 1
    if brightness ≠ 0 ∨ contrast ≠ 1 then [ChainPart.eqBC brightness contrast]
    else []
  else if f.type = "blur" then
    let strength := getParam f.params "strength" 0
    if strength > 0 then [ChainPart.boxblur (pyint (strength * 2) + 1)] else []
  else if f.type = "sharpen" then
    let amount := getParam f.params "amount" 0
    if amount > 0 then [ChainPart.unsharpAmount amount] else []
  else if f.type = "vignette" then
    let intensity := getParam f.params "intensity" 0
    if intensity > 0 then [ChainPart.vignetteAngle intensity] else []
  else if f.type = "filmGrain" then
    let amount := getParam f.params "amount" 0
    if amount > 0 then [ChainPart.noiseGrain (pyint (amount * 10))] else []
  else if f.type = "noise" then
    let amount := getParam f.params "amount" 0
    if amount > 0 then [ChainPart.noiseUniform (pyint (amount * 20))] else []
  else []

/-- Lines 546-606: the fragments of all entries in order (the Python
`",".join`; the empty string corresponds to the empty list). -/
def build_ffmpeg_filter_string (filters : List FilterDictEntry) :
    List ChainPart :=
  filters.foldr (fun f acc => entry_parts f ++ acc) []

/-- Observable outcome of the apply-filters endpoint flow. -/
inductive ApplyFiltersResult
  | badRequest (status : Nat)
  | identity (video_base64 : List Nat)
  | invoked (chain : List ChainPart)
deriving DecidableEq, Repr

/-- Lines 618-654, after the input bytes are resolved: an empty filter list
is rejected with 400; an empty filter string returns the input bytes
re-encoded without invoking the engine; otherwise the engine is invoked
with the chain. -/
def apply_filters_to_video (video_bytes : List Nat)
    (filters : List FilterDictEntry) : ApplyFiltersResult :=
  if filters = [] then .badRequest 400
  else
    let chain := build_ffmpeg_filter_string filters
    if chain = [] then .identity (b64encode video_bytes)
    else .invoked chain

end GenMedia

namespace GenMedia

/-! ## Theorems -/

/-! ### Helper lemmas about the concat loop -/

theorem audioLabelCount_loop_all (any : Bool) (i : Nat) (has : List Bool) :
    audioLabelCount (concat_loop true any i has).2 = has.length := by
  induction has generalizing i with
  | nil => rfl
  | cons h rest ih =>
    have ih2 := ih (i + 1)
    simp only [audioLabelCount] at ih2 ⊢
    simp [concat_loop, List.countP_cons, ih2]

theorem audioLabelCount_loop_none (i : Nat) (has : List Bool) :
    audioLabelCount (concat_loop false false i has).2 = 0 := by
  induction has generalizing i with
  | nil => rfl
  | cons h rest ih =>
    have ih2 := ih (i + 1)
    simp only [audioLabelCount] at ih2 ⊢
    simp [concat_loop, List.countP_cons, ih2]

theorem loop_all_parts_shape (any : Bool) (i : Nat) (has : List Bool) :
    ∀ p ∈ (concat_loop true any i has).1,
      (∃ j, p = .scalepad j) ∨ (∃ j, p = .aformat j) := by
  induction has generalizing i with
  | nil => intro p hp; simp [concat_loop] at hp
  | cons h rest ih =>
    intro p hp
    simp only [concat_loop] at hp
    rw [if_pos trivial] at hp
    simp only [List.mem_cons] at hp
    rcases hp with rfl | rfl | hp
    · exact Or.inl ⟨i, rfl⟩
    · exact Or.inr ⟨i, rfl⟩
    · exact ih (i + 1) p hp

theorem loop_none_parts_shape (i : Nat) (has : List Bool) :
    ∀ p ∈ (concat_loop false false i has).1, ∃ j, p = .scalepad j := by
  induction has generalizing i with
  | nil => intro p hp; simp [concat_loop] at hp
  | cons h rest ih =>
    intro p hp
    simp only [concat_loop] at hp
    rw [if_neg Bool.false_ne_true, if_neg Bool.false_ne_true] at hp
    simp only [List.mem_cons] at hp
    rcases hp with rfl | hp
    · exact ⟨i, rfl⟩
    · exact ih (i + 1) p hp

theorem anullsrc_mem_loop_mixed (has : List Bool) :
    ∀ (i k : Nat), k < has.length → has.getD k true = false →
      FPart.anullsrc (i + k) ∈ (concat_loop false true i has).1 := by
  induction has with
  | nil => intro i k hk; simp at hk
  | cons h rest ih =>
    intro i k hk hfalse
    cases k with
    | zero =>
      simp only [List.getD_cons_zero] at hfalse
      subst hfalse
      simp [concat_loop]
    | succ m =>
      simp only [List.getD_cons_succ] at hfalse
      have hmem := ih (i + 1) m (by simpa using hk) hfalse
      have harith : i + (m + 1) = (i + 1) + m := by omega
      rw [harith]
      cases h <;> simp [concat_loop, hmem]

theorem aformat_mem_loop_mixed (has : List Bool) :
    ∀ (i k : Nat), k < has.length → has.getD k false = true →
      FPart.aformat (i + k) ∈ (concat_loop false true i has).1 := by
  induction has with
  | nil => intro i k hk; simp at hk
  | cons h rest ih =>
    intro i k hk htrue
    cases k with
    | zero =>
      simp only [List.getD_cons_zero] at htrue
      subst htrue
      simp [concat_loop]
    | succ m =>
      simp only [List.getD_cons_succ] at htrue
      have hmem := ih (i + 1) m (by simpa using hk) htrue
      have harith : i + (m + 1) = (i + 1) + m := by omega
      rw [harith]
      cases h <;> simp [concat_loop, hmem]

/-- C1: audio handling in the merge concat builder is a three-way branch on
the probed audio flags of the `N ≥ 2` inputs.  All inputs with audio: each
input contributes a normalized `a{i}` label, the final concat node takes
`N` audio labels (`a=1`), and the output map has video and audio outputs.
Mixed: every input lacking audio gets a synthesized silent stream, every
input having audio a normalized one, and the map still includes the audio
output.  No input with audio: no audio graph segments are emitted, the
concat node carries zero audio streams (`a=0`), and the map contains only
the video label. -/
theorem merge_audio_three_way (has : List Bool) (hn : 2 ≤ has.length) :
    (has.all id = true →
      audioLabelCount (build_concat_graph has).2.1 = has.length ∧
      FPart.concatNode has.length 1 1 ∈ (build_concat_graph has).1 ∧
      (build_concat_graph has).2.2 = [.outv, .outa]) ∧
    (has.any id = true → has.all id = false →
      (∀ k, k < has.length → has.getD k true = false →
        FPart.anullsrc k ∈ (build_concat_graph has).1) ∧
      (∀ k, k < has.length → has.getD k false = true →
        FPart.aformat k ∈ (build_concat_graph has).1) ∧
      FPart.concatNode has.length 1 1 ∈ (build_concat_graph has).1 ∧
      (build_concat_graph has).2.2 = [.outv, .outa]) ∧
    (has.any id = false →
      (∀ p ∈ (build_concat_graph has).1, p.isAudioSeg = false) ∧
      audioLabelCount (build_concat_graph has).2.1 = 0 ∧
      FPart.concatNode has.length 1 0 ∈ (build_concat_graph has).1 ∧
      (build_concat_graph has).2.2 = [.outv]) := by
  refine ⟨fun hall => ?_, fun hany hnall => ?_, fun hnone => ?_⟩
  · have hany : has.any id = true := by
      cases has with
      | nil => simp at hn
      | cons h t =>
        simp only [List.all_cons, Bool.and_eq_true, id] at hall
        simp [List.any_cons, hall.1]
    simp only [build_concat_graph, hall, hany]
    rw [if_pos trivial]
    exact ⟨audioLabelCount_loop_all true 0 has,
      List.mem_append_right _ (by simp), rfl⟩
  · simp only [build_concat_graph, hany, hnall]
    rw [if_pos trivial]
    refine ⟨fun k hk hf => ?_, fun k hk ht => ?_,
      List.mem_append_right _ (by simp), rfl⟩
    · exact List.mem_append_left _
        (by simpa using anullsrc_mem_loop_mixed has 0 k hk hf)
    · exact List.mem_append_left _
        (by simpa using aformat_mem_loop_mixed has 0 k hk ht)
  · have hnall : has.all id = false := by
      cases has with
      | nil => simp at hn
      | cons h t =>
        simp only [List.any_cons, Bool.or_eq_false_iff, id] at hnone
        simp [List.all_cons, hnone.1]
    simp only [build_concat_graph, hnone, hnall]
    rw [if_neg Bool.false_ne_true]
    refine ⟨fun p hp => ?_, audioLabelCount_loop_none 0 has,
      List.mem_append_right _ (by simp), rfl⟩
    rcases List.mem_append.mp hp with hL | hR
    · obtain ⟨j, rfl⟩ := loop_none_parts_shape 0 has p hL
      rfl
    · simp only [List.mem_singleton] at hR
      subst hR
      rfl

/-- C1 witness: the three branches on the concrete flag lists
`[true, true]`, `[true, false]` and `[false, false]`. -/
theorem merge_audio_three_way_witness :
    audioLabelCount (build_concat_graph [true, true]).2.1 = 2 ∧
    FPart.anullsrc 1 ∈ (build_concat_graph [true, false]).1 ∧
    (build_concat_graph [false, false]).2.2 = [.outv] :=
  ⟨((merge_audio_three_way [true, true] (by decide)).1 (by decide)).1,
    ((merge_audio_three_way [true, false] (by decide)).2.1 (by decide)
      (by decide)).1 1 (by decide) (by decide),
    ((merge_audio_three_way [false, false] (by decide)).2.2
      (by decide)).2.2.2⟩

/-- C5 counterexample: on a zero exit status whose stdout `json.loads`
cannot parse, `probe_video` propagates the parse error instead of returning
the empty default — the prober is not raise-free. -/
theorem probe_video_parse_failure_raises :
    probe_video 0 none = Except.error "JSONDecodeError" := rfl

/-- C5 (amended): `probe_video` returns the empty default on any non-zero
engine exit status, and on a zero exit status it returns the parsed data
when parsing succeeds but propagates an exception when `json.loads` fails. -/
theorem probe_video_amended (returncode : Int) (parsed : Option ProbeInfo) :
    (returncode ≠ 0 → probe_video returncode parsed = .ok ProbeInfo.empty) ∧
    (returncode = 0 → ∀ j, parsed = some j → probe_video returncode parsed = .ok j) ∧
    (returncode = 0 → parsed = none →
      probe_video returncode parsed = .error "JSONDecodeError") := by
  refine ⟨fun h => ?_, fun h j hj => ?_, fun h hn => ?_⟩ <;>
    simp [probe_video, h] <;> simp_all

/-- C5 amended witness at concrete inputs. -/
theorem probe_video_amended_witness :
    probe_video 1 none = .ok ProbeInfo.empty ∧
    probe_video 0 (some ProbeInfo.empty) = .ok ProbeInfo.empty := by
  exact ⟨(probe_video_amended 1 none).1 (by decide),
    (probe_video_amended 0 (some ProbeInfo.empty)).2.1 rfl ProbeInfo.empty rfl⟩

/-- C8: a merge request with fewer than 2 input videos is rejected with a
400 client error, one with more than 25 is rejected with a 400 client error,
and for any count within `[2, 25]` the count checks pass. -/
theorem merge_count_check_bounds (n : Nat) :
    (n < 2 → merge_count_check n = some 400) ∧
    (n > 25 → merge_count_check n = some 400) ∧
    (2 ≤ n → n ≤ 25 → merge_count_check n = none) := by
  refine ⟨fun h => ?_, fun h => ?_, fun h1 h2 => ?_⟩ <;>
    simp only [merge_count_check] <;> split_ifs <;> first | rfl | omega

/-- C8 witness: the bounds at the concrete counts 1, 26 and 2. -/
theorem merge_count_check_bounds_witness :
    merge_count_check 1 = some 400 ∧ merge_count_check 26 = some 400 ∧
    merge_count_check 2 = none :=
  ⟨(merge_count_check_bounds 1).1 (by decide),
    (merge_count_check_bounds 26).2.1 (by decide),
    (merge_count_check_bounds 2).2.2 (by decide) (by decide)⟩

/-- C7: for every audio buffer of at least 4 bytes the magic-byte detection
returns `wav` on a `RIFF` header, `mp3` on `ID3`/`0xFFFB`/`0xFFFA`, `flac`
on `fLaC`, `ogg` on `OggS`, `m4a` on `ftyp` at offset 4 (when no earlier
clause matched), and defaults to `mp3` on any unrecognized header, the
clauses being tried in that order. -/
theorem detect_audio_format_spec (a : List Nat) (hlen : 4 ≤ a.length) :
    (a.take 4 = [82, 73, 70, 70] → detect_audio_format a = "wav") ∧
    (a.take 4 ≠ [82, 73, 70, 70] →
      (a.take 3 = [73, 68, 51] ∨ a.take 2 = [255, 251] ∨ a.take 2 = [255, 250]) →
      detect_audio_format a = "mp3") ∧
    (a.take 4 ≠ [82, 73, 70, 70] →
      a.take 3 ≠ [73, 68, 51] → a.take 2 ≠ [255, 251] → a.take 2 ≠ [255, 250] →
      a.take 4 = [102, 76, 97, 67] → detect_audio_format a = "flac") ∧
    (a.take 4 ≠ [82, 73, 70, 70] →
      a.take 3 ≠ [73, 68, 51] → a.take 2 ≠ [255, 251] → a.take 2 ≠ [255, 250] →
      a.take 4 ≠ [102, 76, 97, 67] →
      a.take 4 = [79, 103, 103, 83] → detect_audio_format a = "ogg") ∧
    (a.take 4 ≠ [82, 73, 70, 70] →
      a.take 3 ≠ [73, 68, 51] → a.take 2 ≠ [255, 251] → a.take 2 ≠ [255, 250] →
      a.take 4 ≠ [102, 76, 97, 67] → a.take 4 ≠ [79, 103, 103, 83] →
      (a.drop 4).take 4 = [102, 116, 121, 112] → detect_audio_format a = "m4a") ∧
    (a.take 4 ≠ [82, 73, 70, 70] →
      a.take 3 ≠ [73, 68, 51] → a.take 2 ≠ [255, 251] → a.take 2 ≠ [255, 250] →
      a.take 4 ≠ [102, 76, 97, 67] → a.take 4 ≠ [79, 103, 103, 83] →
      (a.drop 4).take 4 ≠ [102, 116, 121, 112] → detect_audio_format a = "mp3") := by
  unfold detect_audio_format
  rw [if_pos hlen]
  refine ⟨fun h1 => ?_, fun h1 h2 => ?_, fun h1 h2 h3 h4 h5 => ?_,
    fun h1 h2 h3 h4 h5 h6 => ?_, fun h1 h2 h3 h4 h5 h6 h7 => ?_,
    fun h1 h2 h3 h4 h5 h6 h7 => ?_⟩ <;>
    simp_all

/-- C3: on parsed markers with a nonempty start list, the detector returns
the last `silence_start` when there are fewer end markers than start
markers; when end markers are not fewer and the last `silence_end` is within
`0.5` of the total duration it returns the last `silence_start`; and when
that gap exceeds `0.5` it returns `none`. -/
theorem detect_trailing_silence_spec (silence_starts silence_ends : List ℚ)
    (duration : ℚ) (hne : silence_starts ≠ []) :
    (silence_ends.length < silence_starts.length →
      detect_trailing_silence silence_starts silence_ends duration =
        some (silence_starts.getLastD 0)) ∧
    (silence_starts.length ≤ silence_ends.length →
      |silence_ends.getLastD 0 - duration| < 1/2 →
      detect_trailing_silence silence_starts silence_ends duration =
        some (silence_starts.getLastD 0)) ∧
    (silence_starts.length ≤ silence_ends.length →
      |silence_ends.getLastD 0 - duration| > 1/2 →
      detect_trailing_silence silence_starts silence_ends duration = none) := by
  unfold detect_trailing_silence
  rw [if_neg hne]
  refine ⟨fun h => ?_, fun h1 h2 => ?_, fun h1 h2 => ?_⟩
  · rw [if_pos h]
  · rw [if_neg (by omega), if_pos h2]
  · rw [if_neg (by omega), if_neg (by intro h; linarith)]

/-- C3 witness: the three branches at concrete marker lists. -/
theorem detect_trailing_silence_spec_witness :
    detect_trailing_silence [5] [] 10 = some 5 ∧
    detect_trailing_silence [5] [(59 : ℚ)/10] 6 = some 5 ∧
    detect_trailing_silence [5, 6] [(13 : ℚ)/2, 7] 9 = none :=
  ⟨(detect_trailing_silence_spec [5] [] 10 (by decide)).1 (by decide),
    (detect_trailing_silence_spec [5] [(59 : ℚ)/10] 6 (by decide)).2.1
      (by decide) (by rw [abs_sub_lt_iff]; norm_num),
    (detect_trailing_silence_spec [5, 6] [(13 : ℚ)/2, 7] 9 (by decide)).2.2
      (by decide) (by rw [gt_iff_lt, lt_abs]; right; norm_num)⟩

/-- C2: in the silence-trim pre-pass, the detector is consulted at noise
thresholds `-30`, `-40`, `-50` (each with minimum silence duration `0.1`)
in that order and the first reported trim point is kept; a trim is applied
only when the kept trim point exceeds `0.5` (and the trim subprocess
succeeds); and when the trim subprocess fails the original file is used. -/
theorem silence_trim_prepass_spec (detect : ℚ → ℚ → Option ℚ)
    (trim_ok : ℚ → Bool) (t : ℚ) :
    (detect (-30) (1/10) = some t → select_trim_point detect = some t) ∧
    (detect (-30) (1/10) = none → detect (-40) (1/10) = some t →
      select_trim_point detect = some t) ∧
    (detect (-30) (1/10) = none → detect (-40) (1/10) = none →
      select_trim_point detect = detect (-50) (1/10)) ∧
    (process_video_for_trim detect trim_ok = .trimmedAt t →
      select_trim_point detect = some t ∧ t > 1/2 ∧ trim_ok t = true) ∧
    (select_trim_point detect = some t → ¬ t > 1/2 →
      process_video_for_trim detect trim_ok = .original) ∧
    (select_trim_point detect = some t → trim_ok t = false →
      process_video_for_trim detect trim_ok = .original) ∧
    (select_trim_point detect = none →
      process_video_for_trim detect trim_ok = .original) := by
  refine ⟨fun h30 => ?_, fun h30 h40 => ?_, fun h30 h40 => ?_,
    fun h => ?_, fun hsel hle => ?_, fun hsel hfail => ?_, fun hsel => ?_⟩
  · simp only [select_trim_point, h30]
  · simp only [select_trim_point, h30, h40]
  · simp only [select_trim_point, h30, h40]
  · unfold process_video_for_trim at h
    rcases hsel : select_trim_point detect with _ | u <;> simp only [hsel] at h
    · exact absurd h (by simp)
    · by_cases hu : u > 1/2
      · rw [if_pos hu] at h
        by_cases hok : trim_ok u = true
        · rw [if_pos hok] at h
          injection h with h
          exact ⟨by rw [h], h ▸ hu, h ▸ hok⟩
        · rw [if_neg hok] at h
          exact absurd h (by simp)
      · rw [if_neg hu] at h
        exact absurd h (by simp)
  · unfold process_video_for_trim
    simp only [hsel]
    rw [if_neg hle]
  · unfold process_video_for_trim
    simp only [hsel]
    rw [hfail]
    split <;> simp
  · unfold process_video_for_trim
    simp only [hsel]

/-- C2 witness: a detector that answers only at `-40dB` with trim point `3`,
paired with a failing trim subprocess, yields the original file; and the
ladder result is `some 3`. -/
theorem silence_trim_prepass_spec_witness :
    select_trim_point (fun n _ => if n = -40 then some 3 else none) = some 3 ∧
    process_video_for_trim (fun n _ => if n = -40 then some 3 else none)
      (fun _ => false) = .original :=
  ⟨(silence_trim_prepass_spec (fun n _ => if n = -40 then some 3 else none)
      (fun _ => false) 3).2.1 (by norm_num) (by norm_num),
    (silence_trim_prepass_spec (fun n _ => if n = -40 then some 3 else none)
      (fun _ => false) 3).2.2.2.2.2.1
      ((silence_trim_prepass_spec (fun n _ => if n = -40 then some 3 else none)
        (fun _ => false) 3).2.1 (by norm_num) (by norm_num)) rfl⟩

/-- Reduction of the `if` chain of `filter_config_to_ffmpeg` at the
`"sharpen"` type tag. -/
theorem filter_config_to_ffmpeg_sharpen_eq (params : List (String × ℚ)) :
    filter_config_to_ffmpeg ⟨"sharpen", params⟩ =
      (if min (max (getParam params "gamma" 1) 0) 5 = 1 then none
       else some (.unsharp (min (max (getParam params "gamma" 1) 0) 5))) := by
  simp [filter_config_to_ffmpeg]

/-- C4: the sharpen mapping of `filter_config_to_ffmpeg` is omitted exactly
when its amount parameter is the neutral `1.0`; for any other amount it
emits an unsharp fragment whose amount is the parameter clamped to
`[0, 5]`. -/
theorem sharpen_neutral_omitted (params : List (String × ℚ)) :
    (getParam params "gamma" 1 = 1 →
      filter_config_to_ffmpeg ⟨"sharpen", params⟩ = none) ∧
    (getParam params "gamma" 1 ≠ 1 →
      filter_config_to_ffmpeg ⟨"sharpen", params⟩ =
        some (.unsharp (min (max (getParam params "gamma" 1) 0) 5)) ∧
      0 ≤ min (max (getParam params "gamma" 1) 0) 5 ∧
      min (max (getParam params "gamma" 1) 0) 5 ≤ 5) := by
  rw [filter_config_to_ffmpeg_sharpen_eq]
  set g := getParam params "gamma" 1 with hg
  constructor
  · intro h1
    rw [h1]
    norm_num
  · intro h1
    have hclamp : min (max g 0) 5 ≠ 1 := by
      intro hc
      rcases le_total g 0 with h | h
      · rw [max_eq_right h] at hc
        norm_num at hc
      · rcases le_total g 5 with h5 | h5
        · rw [max_eq_left h, min_eq_left h5] at hc
          exact h1 hc
        · rw [max_eq_left h, min_eq_right h5] at hc
          norm_num at hc
    exact ⟨if_neg hclamp, le_min (le_max_right g 0) (by norm_num),
      min_le_right _ 5⟩

/-- C4 witness: `gamma = 1` is omitted, `gamma = 7` is clamped to `5` and
included. -/
theorem sharpen_neutral_omitted_witness :
    filter_config_to_ffmpeg ⟨"sharpen", [("gamma", 1)]⟩ = none ∧
    filter_config_to_ffmpeg ⟨"sharpen", [("gamma", 7)]⟩ =
      some (.unsharp 5) := by
  refine ⟨(sharpen_neutral_omitted [("gamma", 1)]).1 (by norm_num [getParam]), ?_⟩
  have h := ((sharpen_neutral_omitted [("gamma", 7)]).2 (by norm_num [getParam])).1
  rw [h]
  norm_num [getParam]

/-- C7 witness: concrete buffers for each header family. -/
theorem detect_audio_format_spec_witness :
    detect_audio_format [82, 73, 70, 70, 0] = "wav" ∧
    detect_audio_format [73, 68, 51, 4] = "mp3" ∧
    detect_audio_format [102, 76, 97, 67] = "flac" ∧
    detect_audio_format [79, 103, 103, 83] = "ogg" ∧
    detect_audio_format [0, 0, 0, 24, 102, 116, 121, 112] = "m4a" ∧
    detect_audio_format [1, 2, 3, 4] = "mp3" :=
  ⟨(detect_audio_format_spec [82, 73, 70, 70, 0] (by decide)).1 (by decide),
    (detect_audio_format_spec [73, 68, 51, 4] (by decide)).2.1 (by decide)
      (Or.inl (by decide)),
    (detect_audio_format_spec [102, 76, 97, 67] (by decide)).2.2.1 (by decide)
      (by decide) (by decide) (by decide) (by decide),
    (detect_audio_format_spec [79, 103, 103, 83] (by decide)).2.2.2.1 (by decide)
      (by decide) (by decide) (by decide) (by decide) (by decide),
    (detect_audio_format_spec [0, 0, 0, 24, 102, 116, 121, 112] (by decide)).2.2.2.2.1
      (by decide) (by decide) (by decide) (by decide) (by decide) (by decide)
      (by decide),
    (detect_audio_format_spec [1, 2, 3, 4] (by decide)).2.2.2.2.2 (by decide)
      (by decide) (by decide) (by decide) (by decide) (by decide) (by decide)⟩

end GenMedia

namespace GenMedia

/-- Reduction of the stretch fit computation for a positive segment
duration. -/
theorem compute_replacement_filter_stretch (rd seg : ℚ) (hseg : 0 < seg) :
    compute_replacement_filter "stretch" rd seg =
      if rd = 0 then .error "float division by zero"
      else .ok (.setptsFactor (seg / rd)) := by
  unfold compute_replacement_filter
  rw [if_pos rfl, if_pos hseg]
  by_cases h : rd = 0
  · subst h
    simp [pydiv, Except.map]
  · rw [if_neg h]
    have hspeed : rd / seg ≠ 0 := div_ne_zero h (ne_of_gt hseg)
    simp only [pydiv, if_neg hspeed, Except.map]
    rw [one_div_div]

/-- C10: with fit mode `"stretch"` and times passing validation
(`0 ≤ start < end ≤ base duration`), the retime factor is
`replacement_duration / segment_duration` and the plan takes its unguarded
reciprocal: a zero replacement duration (probe yielded no duration) makes
the request fail with the generic 500 `float division by zero` error even
though the start/end validation passed, while any nonzero replacement
duration yields the well-defined retime payload
`segment_duration / replacement_duration`. -/
theorem segment_replace_stretch_reciprocal (s e bd : ℚ)
    (h0 : 0 ≤ s) (hse : s < e) (hbd : e ≤ bd) :
    replace_segment_plan s e bd 0 "stretch" =
      .error (500, "float division by zero") ∧
    (∀ rd : ℚ, rd ≠ 0 →
      replace_segment_plan s e bd rd "stretch" =
        .ok (.setptsFactor ((e - s) / rd))) := by
  have hseg : (0 : ℚ) < e - s := by linarith
  have hclamp : (if e > bd then bd else e) = e := by
    rw [if_neg (not_lt.mpr hbd)]
  constructor
  · unfold replace_segment_plan
    rw [if_neg (not_lt.mpr h0), if_neg (not_le.mpr hse)]
    simp only [hclamp]
    rw [compute_replacement_filter_stretch 0 (e - s) hseg]
    simp
  · intro rd hrd
    unfold replace_segment_plan
    rw [if_neg (not_lt.mpr h0), if_neg (not_le.mpr hse)]
    simp only [hclamp]
    rw [compute_replacement_filter_stretch rd (e - s) hseg, if_neg hrd]

/-- C10 witness: `start=0`, `end=2`, `base=3`; replacement duration `0`
gives the 500 division error, replacement duration `4` the retime payload
`1/2`. -/
theorem segment_replace_stretch_reciprocal_witness :
    replace_segment_plan 0 2 3 0 "stretch" =
      .error (500, "float division by zero") ∧
    replace_segment_plan 0 2 3 4 "stretch" =
      .ok (.setptsFactor (1/2)) := by
  have h := segment_replace_stretch_reciprocal 0 2 3 (by norm_num)
    (by norm_num) (by norm_num)
  refine ⟨h.1, ?_⟩
  rw [h.2 4 (by norm_num)]
  norm_num

end GenMedia

namespace GenMedia

/-! ### Base64 character facts -/

theorem sextet_round : ∀ n < 64, sextetOfB64char (b64charOfSextet n) = some n := by
  decide

theorem b64char_ne : ∀ n < 64,
    b64charOfSextet n ≠ 61 ∧ b64charOfSextet n ≠ 45 ∧
    b64charOfSextet n ≠ 95 ∧ b64charOfSextet n ≠ 10 ∧
    b64charOfSextet n ≠ 13 ∧ b64charOfSextet n ≠ 32 ∧
    b64charOfSextet n ≠ 58 ∧ b64charOfSextet n ≠ 44 ∧
    isPySpace (b64charOfSextet n) = false := by
  decide

theorem goodChar_facts (c : Nat) (h : GoodB64Char c) :
    isB64orPad c = true ∧ isPySpace c = false ∧ c ≠ 10 ∧ c ≠ 13 ∧ c ≠ 32 ∧
      c ≠ 45 ∧ c ≠ 95 ∧ c ≠ 58 := by
  rcases h with ⟨n, hn, rfl⟩ | rfl
  · obtain ⟨h61, h45, h95, h10, h13, h32, h58, h44, hsp⟩ := b64char_ne n hn
    refine ⟨?_, hsp, h10, h13, h32, h45, h95, h58⟩
    simp [isB64orPad, sextet_round n hn]
  · decide

end GenMedia

namespace GenMedia

theorem b64encode_length_mod4 (B : List Nat) : (b64encode B).length % 4 = 0 := by
  induction B using b64encode.induct with
  | case1 => rfl
  | case2 b1 => simp [b64encode]
  | case3 b1 b2 => simp [b64encode]
  | case4 b1 b2 b3 rest ih =>
    simp only [b64encode, List.length_cons]
    omega

theorem b64encode_good (B : List Nat) (hB : ∀ b ∈ B, b < 256) :
    ∀ c ∈ b64encode B, GoodB64Char c := by
  induction B using b64encode.induct with
  | case1 => intro c hc; simp [b64encode] at hc
  | case2 b1 =>
    intro c hc
    have h1 : b1 < 256 := hB b1 (by simp)
    simp only [b64encode, List.mem_cons, List.not_mem_nil, or_false] at hc
    rcases hc with rfl | rfl | rfl | rfl
    · exact Or.inl ⟨b1 / 4, by omega, rfl⟩
    · exact Or.inl ⟨b1 % 4 * 16, by omega, rfl⟩
    · exact Or.inr rfl
    · exact Or.inr rfl
  | case3 b1 b2 =>
    intro c hc
    have h1 : b1 < 256 := hB b1 (by simp)
    have h2 : b2 < 256 := hB b2 (by simp)
    simp only [b64encode, List.mem_cons, List.not_mem_nil, or_false] at hc
    rcases hc with rfl | rfl | rfl | rfl
    · exact Or.inl ⟨b1 / 4, by omega, rfl⟩
    · exact Or.inl ⟨b1 % 4 * 16 + b2 / 16, by omega, rfl⟩
    · exact Or.inl ⟨b2 % 16 * 4, by omega, rfl⟩
    · exact Or.inr rfl
  | case4 b1 b2 b3 rest ih =>
    intro c hc
    have h1 : b1 < 256 := hB b1 (by simp)
    have h2 : b2 < 256 := hB b2 (by simp)
    have h3 : b3 < 256 := hB b3 (by simp)
    have hrest : ∀ b ∈ rest, b < 256 := fun b hb => hB b (by simp [hb])
    simp only [b64encode, List.mem_cons] at hc
    rcases hc with rfl | rfl | rfl | rfl | hc
    · exact Or.inl ⟨b1 / 4, by omega, rfl⟩
    · exact Or.inl ⟨b1 % 4 * 16 + b2 / 16, by omega, rfl⟩
    · exact Or.inl ⟨b2 % 16 * 4 + b3 / 64, by omega, rfl⟩
    · exact Or.inl ⟨b3 % 64, by omega, rfl⟩
    · exact ih hrest c hc

end GenMedia

namespace GenMedia

theorem decodeB64Groups_encode (B : List Nat) (hB : ∀ b ∈ B, b < 256) :
    decodeB64Groups (b64encode B) = some B := by
  induction B using b64encode.induct with
  | case1 => rfl
  | case2 b1 =>
    have h1 : b1 < 256 := hB b1 (by simp)
    have s1 := sextet_round (b1 / 4) (by omega)
    have s2 := sextet_round (b1 % 4 * 16) (by omega)
    simp [b64encode, decodeB64Groups, s1, s2]
    omega
  | case3 b1 b2 =>
    have h1 : b1 < 256 := hB b1 (by simp)
    have h2 : b2 < 256 := hB b2 (by simp)
    have s1 := sextet_round (b1 / 4) (by omega)
    have s2 := sextet_round (b1 % 4 * 16 + b2 / 16) (by omega)
    have s3 := sextet_round (b2 % 16 * 4) (by omega)
    have hne3 : b64charOfSextet (b2 % 16 * 4) ≠ 61 :=
      (b64char_ne (b2 % 16 * 4) (by omega)).1
    simp [b64encode, decodeB64Groups, s1, s2, s3, hne3]
    omega
  | case4 b1 b2 b3 rest ih =>
    have h1 : b1 < 256 := hB b1 (by simp)
    have h2 : b2 < 256 := hB b2 (by simp)
    have h3 : b3 < 256 := hB b3 (by simp)
    have hrest : ∀ b ∈ rest, b < 256 := fun b hb => hB b (by simp [hb])
    have s1 := sextet_round (b1 / 4) (by omega)
    have s2 := sextet_round (b1 % 4 * 16 + b2 / 16) (by omega)
    have s3 := sextet_round (b2 % 16 * 4 + b3 / 64) (by omega)
    have s4 := sextet_round (b3 % 64) (by omega)
    have hne3 : b64charOfSextet (b2 % 16 * 4 + b3 / 64) ≠ 61 :=
      (b64char_ne (b2 % 16 * 4 + b3 / 64) (by omega)).1
    have hne4 : b64charOfSextet (b3 % 64) ≠ 61 :=
      (b64char_ne (b3 % 64) (by omega)).1
    simp [b64encode, decodeB64Groups, s1, s2, s3, s4, hne3, hne4, ih hrest]
    omega

theorem b64decode_encode (B : List Nat) (hB : ∀ b ∈ B, b < 256) :
    b64decode (b64encode B) = some B := by
  have hfilter : (b64encode B).filter isB64orPad = b64encode B :=
    List.filter_eq_self.mpr fun c hc => (goodChar_facts c (b64encode_good B hB c hc)).1
  simp only [b64decode, hfilter, b64encode_length_mod4 B]
  rw [if_pos trivial]
  exact decodeB64Groups_encode B hB

end GenMedia

namespace GenMedia

/-! ### Cleaning-pipeline lemmas -/

theorem urlSafeNoisy_refl (l : List Nat) : UrlSafeNoisy l l := by
  induction l with
  | nil => exact .nil
  | cons a t ih => exact .keep ih

theorem urlSafeNoisy_chars : ∀ e0 body : List Nat, UrlSafeNoisy e0 body →
    (∀ c ∈ e0, GoodB64Char c) →
    ∀ c ∈ body, GoodB64Char c ∨ c = 45 ∨ c = 95 ∨ c = 10 ∨ c = 13 ∨ c = 32 := by
  intro e0 body h
  induction h with
  | nil => intro _ c hc; simp at hc
  | @keep a t u _ ih =>
    intro hgood c hc
    rcases List.mem_cons.mp hc with rfl | hc
    · exact Or.inl (hgood c (by simp))
    · exact ih (fun x hx => hgood x (by simp [hx])) c hc
  | @plus t u _ ih =>
    intro hgood c hc
    rcases List.mem_cons.mp hc with rfl | hc
    · exact Or.inr (Or.inl rfl)
    · exact ih (fun x hx => hgood x (by simp [hx])) c hc
  | @slash t u _ ih =>
    intro hgood c hc
    rcases List.mem_cons.mp hc with rfl | hc
    · exact Or.inr (Or.inr (Or.inl rfl))
    · exact ih (fun x hx => hgood x (by simp [hx])) c hc
  | @ws w t u hw _ ih =>
    intro hgood c hc
    rcases List.mem_cons.mp hc with rfl | hc
    · rcases hw with rfl | rfl | rfl
      · exact Or.inr (Or.inr (Or.inr (Or.inl rfl)))
      · exact Or.inr (Or.inr (Or.inr (Or.inr (Or.inl rfl))))
      · exact Or.inr (Or.inr (Or.inr (Or.inr (Or.inr rfl))))
    · exact ih hgood c hc

theorem toStd_removeWs_body : ∀ e0 body : List Nat, UrlSafeNoisy e0 body →
    (∀ c ∈ e0, GoodB64Char c) → toStdAlphabet (removeWs body) = e0 := by
  intro e0 body h
  induction h with
  | nil => intro _; rfl
  | @keep a t u _ ih =>
    intro hgood
    obtain ⟨_, _, h10, h13, h32, h45, h95, _⟩ :=
      goodChar_facts a (hgood a (by simp))
    have ht := ih (fun x hx => hgood x (by simp [hx]))
    simp only [removeWs, removeChar, toStdAlphabet, replaceChar] at ht ⊢
    simp at ht
    simp [List.filter_cons, h10, h13, h32, h45, h95, ht]
  | @plus t u _ ih =>
    intro hgood
    have ht := ih (fun x hx => hgood x (by simp [hx]))
    simp only [removeWs, removeChar, toStdAlphabet, replaceChar] at ht ⊢
    simp at ht
    simp [List.filter_cons, ht]
  | @slash t u _ ih =>
    intro hgood
    have ht := ih (fun x hx => hgood x (by simp [hx]))
    simp only [removeWs, removeChar, toStdAlphabet, replaceChar] at ht ⊢
    simp at ht
    simp [List.filter_cons, ht]
  | @ws w t u hw _ ih =>
    intro hgood
    have ht := ih hgood
    simp only [removeWs, removeChar, toStdAlphabet, replaceChar] at ht ⊢
    simp at ht
    rcases hw with rfl | rfl | rfl <;> simp [List.filter_cons, ht]

end GenMedia

namespace GenMedia

theorem removeWs_dropWhile (l : List Nat)
    (h : ∀ c ∈ l, isPySpace c = true → c = 10 ∨ c = 13 ∨ c = 32) :
    removeWs (l.dropWhile isPySpace) = removeWs l := by
  induction l with
  | nil => rfl
  | cons a t ih =>
    by_cases ha : isPySpace a = true
    · rw [List.dropWhile_cons_of_pos ha]
      rw [ih (fun c hc hsp => h c (by simp [hc]) hsp)]
      rcases h a (by simp) ha with rfl | rfl | rfl <;>
        simp [removeWs, removeChar, List.filter_cons]
    · rw [List.dropWhile_cons_of_neg ha]

theorem removeChar_reverse (c : Nat) (l : List Nat) :
    removeChar c l.reverse = (removeChar c l).reverse := by
  induction l with
  | nil => rfl
  | cons a t ih =>
    simp only [removeChar] at ih ⊢
    simp [List.filter_append, List.filter_cons, ih]
    split <;> simp

theorem removeWs_reverse (l : List Nat) :
    removeWs l.reverse = (removeWs l).reverse := by
  simp [removeWs, removeChar_reverse]

theorem removeWs_pyStrip (l : List Nat)
    (h : ∀ c ∈ l, isPySpace c = true → c = 10 ∨ c = 13 ∨ c = 32) :
    removeWs (pyStrip l) = removeWs l := by
  unfold pyStrip
  have hmem1 : ∀ c ∈ l.dropWhile isPySpace, c ∈ l :=
    fun c hc => (List.dropWhile_sublist isPySpace).subset hc
  have h1 : ∀ c ∈ (l.dropWhile isPySpace).reverse,
      isPySpace c = true → c = 10 ∨ c = 13 ∨ c = 32 :=
    fun c hc => h c (hmem1 c (List.mem_reverse.mp hc))
  rw [removeWs_reverse, removeWs_dropWhile _ h1, removeWs_reverse,
    List.reverse_reverse, removeWs_dropWhile _ h]

theorem stripDataHead_no58 (s : List Nat) (h : 58 ∉ s) :
    stripDataHead s = s := by
  unfold stripDataHead
  split
  · next htake =>
    exfalso
    apply h
    have h58 : 58 ∈ s.take 5 := by rw [htake]; simp
    exact List.take_subset 5 s h58
  · rfl

theorem findIdx44_append (l1 l2 : List Nat) (h : 44 ∉ l1) :
    List.findIdx? (fun c => c = 44) (l1 ++ 44 :: l2) = some l1.length := by
  induction l1 with
  | nil => simp [List.findIdx?_cons]
  | cons a t ih =>
    have ha : a ≠ 44 := fun hc => h (by simp [hc])
    have ht : 44 ∉ t := fun hc => h (by simp [hc])
    simp [List.findIdx?_cons, ha, ih ht]

theorem drop_append_cons (l1 l2 : List Nat) (x : Nat) :
    (l1 ++ x :: l2).drop (l1.length + 1) = l2 := by
  induction l1 with
  | nil => simp
  | cons a t ih => simp [ih]

theorem stripDataHead_with_head (meta body : List Nat) (hmeta : 44 ∉ meta) :
    stripDataHead ([100, 97, 116, 97, 58] ++ meta ++ 44 :: body) = body := by
  unfold stripDataHead
  have htake : (([100, 97, 116, 97, 58] ++ meta) ++ 44 :: body).take 5 =
      [100, 97, 116, 97, 58] := by
    rw [List.append_assoc]
    have h5 : (5 : Nat) = ([100, 97, 116, 97, 58] : List Nat).length := rfl
    rw [h5, List.take_left]
  rw [if_pos htake]
  have hno44 : 44 ∉ ([100, 97, 116, 97, 58] : List Nat) ++ meta := by
    simp only [List.mem_append]
    rintro (hc | hc)
    · simp at hc
    · exact hmeta hc
  have hfind := findIdx44_append ([100, 97, 116, 97, 58] ++ meta) body hno44
  simp only [hfind]
  exact drop_append_cons _ _ _

theorem padB64_restore (B e0 : List Nat) (k : Nat) (hk : k ≤ 2)
    (henc : e0 ++ List.replicate k 61 = b64encode B) :
    padB64 e0 = b64encode B := by
  have hlen4 := b64encode_length_mod4 B
  have hlen : e0.length + k = (b64encode B).length := by
    rw [← henc]
    simp
  by_cases hk0 : k = 0
  · subst hk0
    simp only [List.replicate_zero, List.append_nil] at henc
    unfold padB64
    rw [if_pos (by omega), henc]
  · have hmod : e0.length % 4 = 4 - k := by omega
    unfold padB64
    rw [if_neg (by omega)]
    have hfill : 4 - e0.length % 4 = k := by omega
    rw [hfill, henc]

theorem b64encode_ne_nil (B : List Nat) (h : B ≠ []) : b64encode B ≠ [] := by
  induction B using b64encode.induct with
  | case1 => exact absurd rfl h
  | case2 b1 => simp [b64encode]
  | case3 b1 b2 => simp [b64encode]
  | case4 b1 b2 b3 rest ih => simp [b64encode]

end GenMedia

namespace GenMedia

/-- Central computation: on any noisy encoding of byte list `B`, the full
cleaning pipeline of `clean_base64` recovers exactly `B`. -/
theorem clean_base64_of_noisy (B s : List Nat)
    (hB : ∀ b ∈ B, b < 256) (hs : s ≠ []) (hnoisy : NoisyEncodingOf B s) :
    clean_base64 s = some B := by
  obtain ⟨meta, k, body, hmeta, hk, ⟨e0, henc, hobf⟩, hform⟩ := hnoisy
  have hgoode : ∀ c ∈ b64encode B, GoodB64Char c := b64encode_good B hB
  have hgood0 : ∀ c ∈ e0, GoodB64Char c :=
    fun c hc => hgoode c (henc ▸ List.mem_append_left _ hc)
  have hbodychars := urlSafeNoisy_chars e0 body hobf hgood0
  have hstrip_hyp : ∀ c ∈ body, isPySpace c = true →
      c = 10 ∨ c = 13 ∨ c = 32 := by
    intro c hc hsp
    rcases hbodychars c hc with hg | rfl | rfl | rfl | rfl | rfl
    · exact absurd hsp (by simp [(goodChar_facts c hg).2.1])
    · exact absurd hsp (by decide)
    · exact absurd hsp (by decide)
    · exact Or.inl rfl
    · exact Or.inr (Or.inl rfl)
    · exact Or.inr (Or.inr rfl)
  have h58 : 58 ∉ body := by
    intro hc
    rcases hbodychars 58 hc with hg | h | h | h | h | h
    · exact (goodChar_facts 58 hg).2.2.2.2.2.2.2 rfl
    all_goals simp at h
  have hhead : stripDataHead s = body := by
    rcases hform with rfl | rfl
    · exact stripDataHead_no58 _ h58
    · exact stripDataHead_with_head meta _ hmeta
  have hpipe : toStdAlphabet (removeWs (pyStrip body)) = e0 := by
    rw [removeWs_pyStrip body hstrip_hyp]
    exact toStd_removeWs_body e0 body hobf hgood0
  unfold clean_base64
  rw [if_neg hs, hhead, hpipe, padB64_restore B e0 k hk henc]
  exact b64decode_encode B hB

/-- C6: for every valid encoded media input — with or without a leading
data-URI-style head, possibly containing whitespace, URL-safe alphabet
characters, or missing padding — the resolver's clean-and-decode yields the
raw bytes, and decode-then-reencode is idempotent: re-encoding those bytes
decodes back to the same bytes (also through the full resolver whenever the
payload is nonempty). -/
theorem clean_base64_roundtrip (B s : List Nat)
    (hB : ∀ b ∈ B, b < 256) (hs : s ≠ []) (hnoisy : NoisyEncodingOf B s) :
    clean_base64 s = some B ∧
    b64decode (b64encode B) = some B ∧
    (B ≠ [] → clean_base64 (b64encode B) = some B) := by
  refine ⟨clean_base64_of_noisy B s hB hs hnoisy, b64decode_encode B hB,
    fun hBne => ?_⟩
  refine clean_base64_of_noisy B (b64encode B) hB (b64encode_ne_nil B hBne) ?_
  exact ⟨[], 0, b64encode B, by simp, by omega,
    ⟨b64encode B, by simp, urlSafeNoisy_refl _⟩, Or.inl rfl⟩

end GenMedia

namespace GenMedia

/-- C6 witness: the payload `data:vi,aG\nk` (URL-safe-free, whitespace in
the middle, padding stripped) decodes to the bytes `[104, 105]` and
re-encoding decodes back to them. -/
theorem clean_base64_roundtrip_witness :
    clean_base64 ([100, 97, 116, 97, 58] ++ [118, 105] ++
      44 :: [97, 71, 10, 107]) = some [104, 105] ∧
    b64decode (b64encode [104, 105]) = some [104, 105] := by
  have h := clean_base64_roundtrip [104, 105]
    ([100, 97, 116, 97, 58] ++ [118, 105] ++ 44 :: [97, 71, 10, 107])
    (by decide) (by decide)
    ⟨[118, 105], 1, [97, 71, 10, 107], by decide, by omega,
      ⟨[97, 71, 107], by decide, .keep (.keep (.ws (Or.inl rfl) (.keep .nil)))⟩,
      Or.inr rfl⟩
  exact ⟨h.1, h.2.1⟩

end GenMedia

namespace GenMedia

theorem build_filter_string_nil (filters : List FilterDictEntry)
    (h : ∀ f ∈ filters, entry_parts f = []) :
    build_ffmpeg_filter_string filters = [] := by
  induction filters with
  | nil => rfl
  | cons f t ih =>
    simp only [build_ffmpeg_filter_string, List.foldr_cons] at ih ⊢
    rw [h f (by simp), ih (fun g hg => h g (by simp [hg])), List.nil_append]

/-- C9 counterexample: an empty filter list produces no filter fragments,
yet the endpoint rejects the request with a 400 client error instead of
returning the input video unchanged. -/
theorem apply_filters_empty_list_rejected :
    build_ffmpeg_filter_string [] = [] ∧
    apply_filters_to_video [0] [] = .badRequest 400 := ⟨rfl, rfl⟩

/-- C9 (amended): for every apply-filters request with a *nonempty* filter
list producing no filter fragments (each entry of unknown type or with
neutral/zero parameters), the engine subprocess is not invoked and the
response payload decodes to exactly the input video bytes; the neutral
parameter examples — brightness `0` with contrast `1`, blur strength `0`,
sharpen amount `0`, vignette intensity `0` — each produce no fragment.
(An empty filter list is instead rejected with a 400 client error.) -/
theorem apply_filters_neutral_identity (video_bytes : List Nat)
    (filters : List FilterDictEntry) (hB : ∀ b ∈ video_bytes, b < 256)
    (hne : filters ≠ []) (hneutral : ∀ f ∈ filters, entry_parts f = []) :
    apply_filters_to_video video_bytes filters =
      .identity (b64encode video_bytes) ∧
    b64decode (b64encode video_bytes) = some video_bytes ∧
    (∀ params, getParam params "brightness" 0 = 0 →
      getParam params "contrast" 1 = 1 →
      entry_parts ⟨"brightnessContrast", params⟩ = []) ∧
    (∀ params, getParam params "strength" 0 = 0 →
      entry_parts ⟨"blur", params⟩ = []) ∧
    (∀ params, getParam params "amount" 0 = 0 →
      entry_parts ⟨"sharpen", params⟩ = []) ∧
    (∀ params, getParam params "intensity" 0 = 0 →
      entry_parts ⟨"vignette", params⟩ = []) := by
  refine ⟨?_, b64decode_encode video_bytes hB, ?_, ?_, ?_, ?_⟩
  · unfold apply_filters_to_video
    rw [if_neg hne, build_filter_string_nil filters hneutral, if_pos rfl]
  · intro params h1 h2
    simp [entry_parts, h1, h2]
  · intro params h1
    simp [entry_parts, h1]
  · intro params h1
    simp [entry_parts, h1]
  · intro params h1
    simp [entry_parts, h1]

/-- C9 witness: one neutral sharpen entry on the byte `[7]` yields the
identity response and its payload decodes back to `[7]`. -/
theorem apply_filters_neutral_identity_witness :
    apply_filters_to_video [7] [⟨"sharpen", [("amount", 0)]⟩] =
      .identity (b64encode [7]) ∧
    b64decode (b64encode [7]) = some [7] := by
  have h := apply_filters_neutral_identity [7] [⟨"sharpen", [("amount", 0)]⟩]
    (by decide) (by decide) (by decide)
  exact ⟨h.1, h.2.1⟩

end GenMedia
